import Mathlib

/-!
Verification of the ToDo-List task service (`src/main.py`).

The service is a thin CRUD layer over a single persisted list of tasks.
Each handler loads the full collection (`read_tasks`), works on it in
memory, and optionally persists the full collection back (`write_tasks`).
We embed the handlers as pure functions on `List Task`; the clock reading
`datetime.now(timezone.utc).isoformat()` is modelled as a `String`
parameter `now` supplied at call time, and an `HTTPException` as an
explicit error value.
-/

namespace ToDo

/-- A task record, after `models.Task`: the JSON shape
`{id, title, description, status, priority, created_at}`. `priority` is
opaque to the server logic; we model it as a natural number. -/
structure Task where
  id : Nat
  title : String
  description : String
  status : String
  priority : Nat
  created_at : String
deriving Repr, DecidableEq

/-- Client input for Create, after `models.TaskCreate`:
`{title, description, priority}`. -/
structure TaskCreate where
  title : String
  description : String
  priority : Nat
deriving Repr, DecidableEq

/-- An `HTTPException(status_code, detail)` value. -/
structure HTTPError where
  status_code : Nat
  detail : String
deriving Repr, DecidableEq

/-- The 404 error every handler raises on a missing id:
`HTTPException(status_code=404, detail="Tarea no encontrada")`. -/
def notFound : HTTPError := ⟨404, "Tarea no encontrada"⟩

/-- Maximum of a list of naturals (`0` on the empty list); for a
non-empty list this is Python's `max` over the list. -/
def listMax : List Nat → Nat
  | [] => 0
  | x :: xs => max x (listMax xs)

/-- The id computed by `create_task` (main.py lines 50-54):
`1` if the collection is empty (`if not tasks`), else
`max(t["id"] for t in tasks) + 1`. -/
def nextId (tasks : List Task) : Nat :=
  match tasks with
  | [] => 1
  | _ :: _ => listMax (tasks.map Task.id) + 1

/-- `create_task` (main.py lines 37-65): build the new task with the
computed id, the client fields, `status = "pendiente"` and
`created_at = now`; append it; persist (`write_tasks(tasks)`); return it.
The result is the pair (returned task, persisted collection). -/
def create_task (tasks : List Task) (task_in : TaskCreate) (now : String) :
    Task × List Task :=
  let new_task : Task :=
    { id := nextId tasks
      title := task_in.title
      description := task_in.description
      status := "pendiente"
      priority := task_in.priority
      created_at := now }
  (new_task, tasks ++ [new_task])

/-- `get_task` (main.py lines 69-91): linear scan for the first task with
the requested id; 404 if none. No write occurs. -/
def get_task (tasks : List Task) (task_id : Nat) : Except HTTPError Task :=
  match tasks with
  | [] => .error notFound
  | t :: ts => if t.id = task_id then .ok t else get_task ts task_id

/-- `complete_task` (main.py lines 95-118): linear scan for the first task
with the requested id; set its `status` to `"completada"`, persist the
full collection (`write_tasks(tasks)`), return the updated task; 404 and
no write if none matches. The result pairs the returned task with the
persisted collection. -/
def complete_task (tasks : List Task) (task_id : Nat) :
    Except HTTPError (Task × List Task) :=
  match tasks with
  | [] => .error notFound
  | t :: ts =>
    if t.id = task_id then
      let t2 := { t with status := "completada" }
      .ok (t2, t2 :: ts)
    else
      match complete_task ts task_id with
      | .error e => .error e
      | .ok (u, ts2) => .ok (u, t :: ts2)

/-- `delete_task` (main.py lines 121-143): build the collection excluding
every task with the requested id; 404 if the length did not shrink;
otherwise persist the filtered collection and return the confirmation
message. The result pairs the message with the persisted collection. -/
def delete_task (tasks : List Task) (task_id : Nat) :
    Except HTTPError (String × List Task) :=
  let new_tasks := tasks.filter (fun t => t.id ≠ task_id)
  if new_tasks.length = tasks.length then
    .error notFound
  else
    .ok ("Tarea eliminada correctamente", new_tasks)

/-- `get_tasks` (main.py lines 25-34): return the collection as-is. -/
def get_tasks (tasks : List Task) : List Task := tasks

/-- One request to the router: List, Create, Get-by-id, Complete or
Delete. Create carries the client input and the clock reading at the
call. -/
inductive Op where
  | list
  | create (task_in : TaskCreate) (now : String)
  | get (task_id : Nat)
  | complete (task_id : Nat)
  | delete (task_id : Nat)
deriving Repr, DecidableEq

/-- The persisted collection after one request is handled sequentially:
read-only requests and 404 paths leave it unchanged; successful Create,
Complete and Delete persist their new collection. -/
def apply_op (tasks : List Task) (op : Op) : List Task :=
  match op with
  | .list => get_tasks tasks
  | .create task_in now => (create_task tasks task_in now).2
  | .get _ => tasks
  | .complete task_id =>
    match complete_task tasks task_id with
    | .error _ => tasks
    | .ok (_, ts2) => ts2
  | .delete task_id =>
    match delete_task tasks task_id with
    | .error _ => tasks
    | .ok (_, ts2) => ts2

/-- The collection after a sequence of requests starting from the empty
collection. -/
def run (ops : List Op) : List Task := ops.foldl apply_op []

/-- States of the persisted collection reachable from the empty
collection by handling requests one at a time. -/
inductive Reachable : List Task → Prop where
  | empty : Reachable []
  | step (s : List Task) (op : Op) : Reachable s → Reachable (apply_op s op)

/-- The persisted collection after a sequence of Create calls, each
carrying its client input and its clock reading. -/
def createAll (inputs : List (TaskCreate × String)) (s : List Task) :
    List Task :=
  inputs.foldl (fun acc p => (create_task acc p.1 p.2).2) s

/-- Every member of a list of naturals is bounded by `listMax`. -/
theorem le_listMax {x : Nat} {xs : List Nat} (hx : x ∈ xs) : x ≤ listMax xs := by
  induction xs with
  | nil => cases hx
  | cons y ys ih =>
    rcases List.mem_cons.mp hx with h | h
    · subst h; exact Nat.le_max_left _ _
    · exact le_trans (ih h) (Nat.le_max_right _ _)

/-- The id computed for a Create call is strictly above every id already
in the collection. -/
theorem id_lt_nextId {t : Task} {tasks : List Task} (ht : t ∈ tasks) :
    t.id < nextId tasks := by
  cases tasks with
  | nil => cases ht
  | cons u us =>
    have hle : t.id ≤ listMax ((u :: us).map Task.id) :=
      le_listMax (List.mem_map_of_mem Task.id ht)
    simpa [nextId] using Nat.lt_succ_of_le hle

/-- Unfolding `complete_task` on a head that matches. -/
theorem complete_task_cons_pos {t : Task} {ts : List Task} {task_id : Nat}
    (h : t.id = task_id) :
    complete_task (t :: ts) task_id =
      .ok ({ t with status := "completada" },
           { t with status := "completada" } :: ts) := by
  simp [complete_task, h]

/-- Unfolding `complete_task` on a head that does not match. -/
theorem complete_task_cons_neg {t : Task} {ts : List Task} {task_id : Nat}
    (h : ¬ t.id = task_id) :
    complete_task (t :: ts) task_id =
      match complete_task ts task_id with
      | .error e => .error e
      | .ok (u, ts2) => .ok (u, t :: ts2) := by
  simp [complete_task, h]

/-- When some task matches, the collection splits at the first match. -/
theorem exists_first_match {tasks : List Task} {task_id : Nat}
    (h : ∃ t ∈ tasks, t.id = task_id) :
    ∃ l1 t l2, tasks = l1 ++ t :: l2 ∧ t.id = task_id ∧
      ∀ v ∈ l1, v.id ≠ task_id := by
  induction tasks with
  | nil => simp at h
  | cons t ts ih =>
    by_cases hid : t.id = task_id
    · exact ⟨[], t, ts, rfl, hid, by simp⟩
    · obtain ⟨v, hv, hvid⟩ := h
      rcases List.mem_cons.mp hv with rfl | hv2
      · exact absurd hvid hid
      · obtain ⟨l1, w, l2, heq, hwid, hfirst⟩ := ih ⟨v, hv2, hvid⟩
        refine ⟨t :: l1, w, l2, by rw [heq, List.cons_append], hwid, ?_⟩
        intro x hx
        rcases List.mem_cons.mp hx with rfl | hx2
        · exact hid
        · exact hfirst x hx2

/-- `complete_task` on a collection split at its first match: the first
matching task gets status `"completada"`, everything else is untouched. -/
theorem complete_task_first {l1 : List Task} {t : Task} {l2 : List Task}
    {task_id : Nat} (ht : t.id = task_id) (hl1 : ∀ v ∈ l1, v.id ≠ task_id) :
    complete_task (l1 ++ t :: l2) task_id =
      .ok ({ t with status := "completada" },
           l1 ++ { t with status := "completada" } :: l2) := by
  induction l1 with
  | nil => simpa using complete_task_cons_pos ht
  | cons v vs ih =>
    have hv : ¬ v.id = task_id := hl1 v (List.mem_cons_self v vs)
    rw [List.cons_append, complete_task_cons_neg hv,
      ih fun x hx => hl1 x (List.mem_cons_of_mem v hx)]
    rfl

/-- `complete_task` fails with the 404 error when nothing matches, and in
particular writes nothing. -/
theorem complete_task_error {tasks : List Task} {task_id : Nat}
    (h : ∀ t ∈ tasks, t.id ≠ task_id) :
    complete_task tasks task_id = .error notFound := by
  induction tasks with
  | nil => rfl
  | cons t ts ih =>
    rw [complete_task_cons_neg (h t (List.mem_cons_self t ts)),
      ih fun u hu => h u (List.mem_cons_of_mem t hu)]

/-- `get_task` on a collection split at its first match returns that task. -/
theorem get_task_first {l1 : List Task} {t : Task} {l2 : List Task}
    {task_id : Nat} (ht : t.id = task_id) (hl1 : ∀ v ∈ l1, v.id ≠ task_id) :
    get_task (l1 ++ t :: l2) task_id = .ok t := by
  induction l1 with
  | nil => simp [get_task, ht]
  | cons v vs ih =>
    have hv : ¬ v.id = task_id := hl1 v (List.mem_cons_self v vs)
    rw [List.cons_append]
    simpa [get_task, hv] using ih fun x hx => hl1 x (List.mem_cons_of_mem v hx)

/-- `get_task` fails with the 404 error when nothing matches. -/
theorem get_task_error {tasks : List Task} {task_id : Nat}
    (h : ∀ t ∈ tasks, t.id ≠ task_id) :
    get_task tasks task_id = .error notFound := by
  induction tasks with
  | nil => rfl
  | cons t ts ih =>
    have ht : ¬ t.id = task_id := h t (List.mem_cons_self t ts)
    simpa [get_task, ht] using ih fun u hu => h u (List.mem_cons_of_mem t hu)

/-- `delete_task` succeeds when some task matches: the persisted
collection is the filter dropping every match, and the confirmation
message is returned. -/
theorem delete_task_ok {tasks : List Task} {task_id : Nat}
    (h : ∃ t ∈ tasks, t.id = task_id) :
    delete_task tasks task_id =
      .ok ("Tarea eliminada correctamente",
           tasks.filter (fun t => t.id ≠ task_id)) := by
  obtain ⟨t, ht, htid⟩ := h
  have hlt : (tasks.filter (fun t => t.id ≠ task_id)).length < tasks.length :=
    List.length_filter_lt_length_iff_exists.mpr ⟨t, ht, by simp [htid]⟩
  simp only [delete_task]
  rw [if_neg (Nat.ne_of_lt hlt)]

/-- `delete_task` fails with the 404 error when nothing matches, and in
particular writes nothing. -/
theorem delete_task_error {tasks : List Task} {task_id : Nat}
    (h : ∀ t ∈ tasks, t.id ≠ task_id) :
    delete_task tasks task_id = .error notFound := by
  have hself : tasks.filter (fun t => t.id ≠ task_id) = tasks :=
    List.filter_eq_self.mpr fun t ht => by simp [h t ht]
  simp only [delete_task]
  rw [hself, if_pos rfl]

/-- Tasks with equal ids are equal whenever the collection's ids are
pairwise distinct. -/
theorem eq_of_id_eq {tasks : List Task} (hnd : (tasks.map Task.id).Nodup)
    {t u : Task} (ht : t ∈ tasks) (hu : u ∈ tasks) (hid : t.id = u.id) :
    t = u :=
  List.inj_on_of_nodup_map hnd ht hu hid

/-- Every handler preserves distinctness of the ids in the persisted
collection. -/
theorem nodup_apply_op {s : List Task} (hs : (s.map Task.id).Nodup)
    (op : Op) : ((apply_op s op).map Task.id).Nodup := by
  cases op with
  | list => exact hs
  | get task_id => exact hs
  | create task_in now =>
    have hfresh : nextId s ∉ s.map Task.id := by
      intro hmem
      obtain ⟨t, ht, htid⟩ := List.mem_map.mp hmem
      exact absurd htid (Nat.ne_of_lt (id_lt_nextId ht))
    simp [apply_op, create_task, List.nodup_append, hs, hfresh]
  | complete task_id =>
    simp only [apply_op]
    by_cases h : ∃ t ∈ s, t.id = task_id
    · obtain ⟨l1, t, l2, rfl, htid, hfirst⟩ := exists_first_match h
      rw [complete_task_first htid hfirst]
      simpa using hs
    · rw [complete_task_error fun t ht hteq => h ⟨t, ht, hteq⟩]
      exact hs
  | delete task_id =>
    simp only [apply_op]
    by_cases h : ∃ t ∈ s, t.id = task_id
    · rw [delete_task_ok h]
      exact ((s.filter_sublist).map Task.id).nodup hs
    · rw [delete_task_error fun t ht hteq => h ⟨t, ht, hteq⟩]
      exact hs

/-- In every reachable state the ids are pairwise distinct. -/
theorem reachable_nodup {s : List Task} (h : Reachable s) :
    (s.map Task.id).Nodup := by
  induction h with
  | empty => simp
  | step s op _ ih => exact nodup_apply_op ih op

/-- Every handler preserves the status range
{`"pendiente"`, `"completada"`}. -/
theorem status_apply_op {s : List Task}
    (hs : ∀ t ∈ s, t.status = "pendiente" ∨ t.status = "completada")
    (op : Op) :
    ∀ t ∈ apply_op s op, t.status = "pendiente" ∨ t.status = "completada" := by
  cases op with
  | list => exact hs
  | get task_id => exact hs
  | create task_in now =>
    intro t ht
    rcases List.mem_append.mp ht with h | h
    · exact hs t h
    · left
      rw [List.mem_singleton.mp h]
  | complete task_id =>
    simp only [apply_op]
    by_cases h : ∃ t ∈ s, t.id = task_id
    · obtain ⟨l1, w, l2, rfl, hwid, hfirst⟩ := exists_first_match h
      rw [complete_task_first hwid hfirst]
      intro t ht
      rcases List.mem_append.mp ht with h1 | h1
      · exact hs t (List.mem_append.mpr (Or.inl h1))
      · rcases List.mem_cons.mp h1 with rfl | h2
        · right; rfl
        · exact hs t (by simp [h2])
    · rw [complete_task_error fun t ht hteq => h ⟨t, ht, hteq⟩]
      exact hs
  | delete task_id =>
    simp only [apply_op]
    by_cases h : ∃ t ∈ s, t.id = task_id
    · rw [delete_task_ok h]
      exact fun t ht => hs t (List.mem_of_mem_filter ht)
    · rw [delete_task_error fun t ht hteq => h ⟨t, ht, hteq⟩]
      exact hs

/-- In every reachable state every status is `"pendiente"` or
`"completada"`. -/
theorem reachable_status {s : List Task} (h : Reachable s) :
    ∀ t ∈ s, t.status = "pendiente" ∨ t.status = "completada" := by
  induction h with
  | empty => simp
  | step s op _ ih => exact status_apply_op ih op

/-- Across one handled request, a task of the resulting state that shares
its id with a task of the prior state is either that very task, or that
task with its status set to `"completada"` by a Complete request. -/
theorem step_status_one_way {s : List Task} (hnd : (s.map Task.id).Nodup)
    (op : Op) {t2 : Task} (ht2 : t2 ∈ apply_op s op)
    {t : Task} (ht : t ∈ s) (hid : t2.id = t.id) :
    t2 = t ∨ ∃ task_id, op = Op.complete task_id ∧
      t2 = { t with status := "completada" } := by
  cases op with
  | list => exact Or.inl (eq_of_id_eq hnd ht2 ht hid)
  | get task_id => exact Or.inl (eq_of_id_eq hnd ht2 ht hid)
  | create task_in now =>
    rcases List.mem_append.mp ht2 with h | h
    · exact Or.inl (eq_of_id_eq hnd h ht hid)
    · exfalso
      have : t2.id = nextId s := by rw [List.mem_singleton.mp h]
      exact absurd (hid ▸ this) (Nat.ne_of_lt (id_lt_nextId ht))
  | complete task_id =>
    simp only [apply_op] at ht2
    by_cases h : ∃ v ∈ s, v.id = task_id
    · obtain ⟨l1, w, l2, hsplit, hwid, hfirst⟩ := exists_first_match h
      rw [hsplit, complete_task_first hwid hfirst] at ht2
      rcases List.mem_append.mp ht2 with h1 | h1
      · exact Or.inl (eq_of_id_eq hnd (hsplit ▸ List.mem_append.mpr (Or.inl h1)) ht hid)
      · rcases List.mem_cons.mp h1 with rfl | h2
        · have hw : w ∈ s := hsplit ▸ List.mem_append.mpr (Or.inr (List.mem_cons_self w l2))
          have : w = t := eq_of_id_eq hnd hw ht (by simpa using hid)
          exact Or.inr ⟨task_id, rfl, by rw [this]⟩
        · exact Or.inl (eq_of_id_eq hnd (hsplit ▸ by simp [h2]) ht hid)
    · rw [complete_task_error fun v hv hveq => h ⟨v, hv, hveq⟩] at ht2
      exact Or.inl (eq_of_id_eq hnd ht2 ht hid)
  | delete task_id =>
    simp only [apply_op] at ht2
    by_cases h : ∃ v ∈ s, v.id = task_id
    · rw [delete_task_ok h] at ht2
      exact Or.inl (eq_of_id_eq hnd (List.mem_of_mem_filter ht2) ht hid)
    · rw [delete_task_error fun v hv hveq => h ⟨v, hv, hveq⟩] at ht2
      exact Or.inl (eq_of_id_eq hnd ht2 ht hid)

/-- `listMax` over a list extended on the right. -/
theorem listMax_concat (xs : List Nat) (y : Nat) :
    listMax (xs ++ [y]) = max (listMax xs) y := by
  induction xs with
  | nil => simp [listMax]
  | cons x xs ih => simp [listMax, ih]; omega

/-- `listMax` of the ids `1, …, n`. -/
theorem listMax_range (n : Nat) : listMax (List.range' 1 n) = n := by
  induction n with
  | zero => rfl
  | succ k ih => rw [List.range'_1_concat, listMax_concat, ih]; omega

/-- On a collection whose ids are exactly `1, …, n` in order, the next
assigned id is `n + 1`. -/
theorem nextId_of_ids_range {s : List Task} {n : Nat}
    (h : s.map Task.id = List.range' 1 n) : nextId s = n + 1 := by
  cases s with
  | nil =>
    have hn : n = 0 := by simpa using (congrArg List.length h).symm
    simp [nextId, hn]
  | cons t ts =>
    rw [nextId, h, listMax_range]

/-- Folding Create calls over a collection whose ids are `1, …, n`
extends the ids to `1, …, n + (number of calls)`, in order. -/
theorem createAll_ids {inputs : List (TaskCreate × String)}
    {s : List Task} {n : Nat} (h : s.map Task.id = List.range' 1 n) :
    (createAll inputs s).map Task.id = List.range' 1 (n + inputs.length) := by
  induction inputs generalizing s n with
  | nil => simpa [createAll] using h
  | cons p rest ih =>
    have hstep : ((create_task s p.1 p.2).2).map Task.id =
        List.range' 1 (n + 1) := by
      rw [create_task]
      simp only [List.map_append, List.map_cons, List.map_nil, h]
      rw [nextId_of_ids_range h, List.range'_1_concat]
      simp [Nat.add_comm]
    have := ih hstep
    rw [createAll] at this ⊢
    simp only [List.foldl_cons] at this ⊢
    rw [this, List.length_cons]
    congr 1
    omega

example : nextId [] = 1 := by decide
example :
    (create_task [] ⟨"A", "", 1⟩ "t1").1.id = 1 := by decide
example :
    (create_task (create_task [] ⟨"A", "", 1⟩ "t1").2 ⟨"B", "", 2⟩ "t2").1.id = 2 := by
  decide

/-- C1: a Create call assigns id `1` on the empty collection and
`max(existing ids) + 1` on a non-empty one; consequently, starting from
the empty collection, a sequence of Create calls with no intervening
deletions assigns ids `1, 2, 3, …` in call order: the persisted ids are
exactly `1, …, n` in order, and the id assigned at the `(k+1)`-st call is
`k + 1`. -/
theorem C1_create_id_assignment :
    (∀ task_in : TaskCreate, ∀ now : String,
      (create_task [] task_in now).1.id = 1) ∧
    (∀ s : List Task, s ≠ [] → ∀ task_in : TaskCreate, ∀ now : String,
      (create_task s task_in now).1.id = listMax (s.map Task.id) + 1) ∧
    (∀ inputs : List (TaskCreate × String),
      (createAll inputs []).map Task.id = List.range' 1 inputs.length) ∧
    (∀ inputs : List (TaskCreate × String), ∀ k : Nat, k < inputs.length →
      ∀ task_in : TaskCreate, ∀ now : String,
        (create_task (createAll (inputs.take k) []) task_in now).1.id
          = k + 1) := by
  refine ⟨fun task_in now => rfl, ?_, ?_, ?_⟩
  · intro s hs task_in now
    cases s with
    | nil => exact absurd rfl hs
    | cons t ts => rfl
  · intro inputs
    simpa using @createAll_ids inputs [] 0 rfl
  · intro inputs k hk task_in now
    have hids : (createAll (inputs.take k) []).map Task.id =
        List.range' 1 k := by
      have := @createAll_ids (inputs.take k) [] 0 rfl
      rwa [List.length_take_of_le (Nat.le_of_lt hk), Nat.zero_add] at this
    exact nextId_of_ids_range hids

/-- Witness for C1 at a concrete two-call sequence: the second Create
call (after taking the first one) assigns id `2`. -/
theorem C1_create_id_assignment_witness :
    (1 : Nat) < ([(⟨"A", "", 1⟩, "t1"), (⟨"B", "", 2⟩, "t2")] :
      List (TaskCreate × String)).length ∧
    (create_task
      (createAll (([(⟨"A", "", 1⟩, "t1"), (⟨"B", "", 2⟩, "t2")] :
        List (TaskCreate × String)).take 1) [])
      ⟨"B", "", 2⟩ "t2").1.id = 1 + 1 :=
  ⟨by decide,
   C1_create_id_assignment.2.2.2 [(⟨"A", "", 1⟩, "t1"), (⟨"B", "", 2⟩, "t2")]
     1 (by decide) ⟨"B", "", 2⟩ "t2"⟩

/-- C2: id uniqueness is an invariant of the sequential system — in every
state reachable from the empty collection the persisted ids are pairwise
distinct, and every single handled request preserves distinctness. -/
theorem C2_id_uniqueness :
    (∀ s : List Task, Reachable s → (s.map Task.id).Nodup) ∧
    (∀ s : List Task, ∀ op : Op, (s.map Task.id).Nodup →
      ((apply_op s op).map Task.id).Nodup) :=
  ⟨fun _ hs => reachable_nodup hs, fun _ op hs => nodup_apply_op hs op⟩

/-- Witness for C2 at the concrete reachable state produced by two
Create calls. -/
theorem C2_id_uniqueness_witness :
    ((run [Op.create ⟨"A", "", 1⟩ "t1",
           Op.create ⟨"B", "", 2⟩ "t2"]).map Task.id).Nodup :=
  C2_id_uniqueness.1 _
    (Reachable.step (apply_op [] (Op.create ⟨"A", "", 1⟩ "t1"))
      (Op.create ⟨"B", "", 2⟩ "t2")
      (Reachable.step [] (Op.create ⟨"A", "", 1⟩ "t1") Reachable.empty))

/-- C3 counterexample: ids are reused after deletion. Create twice
(ids 1 and 2), delete the task with id 2; the next Create computes
`max{1} + 1 = 2` and reassigns the deleted id 2. -/
theorem C3_id_reuse_counterexample :
    (create_task (create_task [] ⟨"A", "", 1⟩ "t1").2 ⟨"B", "", 2⟩
        "t2").1.id = 2 ∧
    delete_task (create_task (create_task [] ⟨"A", "", 1⟩ "t1").2
        ⟨"B", "", 2⟩ "t2").2 2 =
      .ok ("Tarea eliminada correctamente",
           (create_task [] ⟨"A", "", 1⟩ "t1").2) ∧
    (create_task (create_task [] ⟨"A", "", 1⟩ "t1").2 ⟨"C", "", 3⟩
        "t3").1.id = 2 :=
  ⟨rfl, rfl, rfl⟩

/-- C3 amended: a Create call always assigns an id strictly greater than
every id present in the loaded collection; hence a deleted id can be
reassigned only when it exceeds every id present at the later Create
call (as when the maximal id was deleted), and ids below the current
maximum — gaps from deletion — are never refilled. -/
theorem C3_amended_fresh_ids (s : List Task) (task_in : TaskCreate)
    (now : String) (t : Task) (ht : t ∈ s) :
    t.id < (create_task s task_in now).1.id :=
  id_lt_nextId ht

/-- Witness for the amended C3 at a concrete one-task collection. -/
theorem C3_amended_fresh_ids_witness :
    (⟨1, "A", "", "pendiente", 1, "t1"⟩ : Task) ∈
      ([⟨1, "A", "", "pendiente", 1, "t1"⟩] : List Task) ∧
    (⟨1, "A", "", "pendiente", 1, "t1"⟩ : Task).id <
      (create_task [⟨1, "A", "", "pendiente", 1, "t1"⟩]
        ⟨"B", "", 2⟩ "t2").1.id :=
  ⟨List.mem_singleton.mpr rfl,
   C3_amended_fresh_ids [⟨1, "A", "", "pendiente", 1, "t1"⟩] ⟨"B", "", 2⟩
     "t2" ⟨1, "A", "", "pendiente", 1, "t1"⟩ (List.mem_singleton.mpr rfl)⟩

/-- C4: when some task matches, Complete splits the collection at the
first match, sets only that task's status to `"completada"` (all its
other fields unchanged), leaves every other task unchanged and in order,
persists exactly that collection — with no hypothesis on the previous
status, so also when it was already `"completada"` — and returns the
updated task. -/
theorem C4_complete_updates_first_match (tasks : List Task)
    (task_id : Nat) (h : ∃ t ∈ tasks, t.id = task_id) :
    ∃ l1 t l2, tasks = l1 ++ t :: l2 ∧ t.id = task_id ∧
      (∀ v ∈ l1, v.id ≠ task_id) ∧
      complete_task tasks task_id =
        .ok ({ t with status := "completada" },
             l1 ++ { t with status := "completada" } :: l2) := by
  obtain ⟨l1, t, l2, rfl, htid, hfirst⟩ := exists_first_match h
  exact ⟨l1, t, l2, rfl, htid, hfirst, complete_task_first htid hfirst⟩

/-- Witness for C4 at a concrete collection whose matching task is
already `"completada"`: the write still happens. -/
theorem C4_complete_updates_first_match_witness :
    (∃ t ∈ ([⟨2, "B", "", "pendiente", 2, "t2"⟩,
             ⟨1, "A", "d", "completada", 1, "t1"⟩] : List Task),
      Task.id t = 1) ∧
    (∃ l1 t l2,
      ([⟨2, "B", "", "pendiente", 2, "t2"⟩,
        ⟨1, "A", "d", "completada", 1, "t1"⟩] : List Task)
        = l1 ++ t :: l2 ∧ Task.id t = 1 ∧
      (∀ v ∈ l1, Task.id v ≠ 1) ∧
      complete_task [⟨2, "B", "", "pendiente", 2, "t2"⟩,
        ⟨1, "A", "d", "completada", 1, "t1"⟩] 1 =
        .ok ({ t with status := "completada" },
             l1 ++ { t with status := "completada" } :: l2)) :=
  ⟨⟨⟨1, "A", "d", "completada", 1, "t1"⟩, by simp, rfl⟩,
   C4_complete_updates_first_match _ 1
     ⟨⟨1, "A", "d", "completada", 1, "t1"⟩, by simp, rfl⟩⟩

/-- C5: when some task matches, Delete persists the filter that removes
every task with the requested id — so the persisted collection contains
no task with that id, while every non-matching task is kept (unchanged,
and in the original relative order, filter being order-preserving) — and
returns the confirmation message; when no task matches, Delete fails
with the 404 error. -/
theorem C5_delete_removes_all_matches (tasks : List Task)
    (task_id : Nat) :
    ((∃ t ∈ tasks, t.id = task_id) →
      delete_task tasks task_id =
        .ok ("Tarea eliminada correctamente",
             tasks.filter (fun t => t.id ≠ task_id)) ∧
      (∀ v ∈ tasks.filter (fun t => t.id ≠ task_id), v.id ≠ task_id) ∧
      (∀ v ∈ tasks, v.id ≠ task_id →
        v ∈ tasks.filter (fun t => t.id ≠ task_id))) ∧
    ((∀ t ∈ tasks, t.id ≠ task_id) →
      delete_task tasks task_id = .error notFound ∧
      notFound.status_code = 404) := by
  constructor
  · intro h
    refine ⟨delete_task_ok h, ?_, ?_⟩
    · intro v hv
      simpa using List.of_mem_filter hv
    · intro v hv hne
      exact List.mem_filter.mpr ⟨hv, by simpa using hne⟩
  · intro h
    exact ⟨delete_task_error h, rfl⟩

/-- Witness for C5 at a concrete two-task collection: deleting id 1
keeps exactly the task with id 2. -/
theorem C5_delete_removes_all_matches_witness :
    (∃ t ∈ ([⟨1, "A", "", "pendiente", 1, "t1"⟩,
             ⟨2, "B", "", "pendiente", 2, "t2"⟩] : List Task),
      Task.id t = 1) ∧
    delete_task [⟨1, "A", "", "pendiente", 1, "t1"⟩,
      ⟨2, "B", "", "pendiente", 2, "t2"⟩] 1 =
      .ok ("Tarea eliminada correctamente",
           ([⟨1, "A", "", "pendiente", 1, "t1"⟩,
             ⟨2, "B", "", "pendiente", 2, "t2"⟩] : List Task).filter
             (fun t => Task.id t ≠ 1)) :=
  ⟨⟨⟨1, "A", "", "pendiente", 1, "t1"⟩, by simp, rfl⟩,
   ((C5_delete_removes_all_matches _ 1).1
     ⟨⟨1, "A", "", "pendiente", 1, "t1"⟩, by simp, rfl⟩).1⟩

/-- C6: Complete is atomic on failure — when no task matches, the
handler raises the 404 error before any write, so the persisted
collection after handling the request is exactly the prior one. -/
theorem C6_complete_atomic_on_not_found (tasks : List Task)
    (task_id : Nat) (h : ∀ t ∈ tasks, t.id ≠ task_id) :
    complete_task tasks task_id = .error notFound ∧
    notFound.status_code = 404 ∧
    apply_op tasks (Op.complete task_id) = tasks := by
  have he := complete_task_error h
  refine ⟨he, rfl, ?_⟩
  simp only [apply_op]
  rw [he]

/-- Witness for C6 at a concrete one-task collection and a missing id. -/
theorem C6_complete_atomic_on_not_found_witness :
    (∀ t ∈ ([⟨1, "A", "", "pendiente", 1, "t1"⟩] : List Task),
      Task.id t ≠ 7) ∧
    complete_task [⟨1, "A", "", "pendiente", 1, "t1"⟩] 7
      = .error notFound ∧
    notFound.status_code = 404 ∧
    apply_op [⟨1, "A", "", "pendiente", 1, "t1"⟩] (Op.complete 7)
      = [⟨1, "A", "", "pendiente", 1, "t1"⟩] :=
  ⟨by decide,
   C6_complete_atomic_on_not_found [⟨1, "A", "", "pendiente", 1, "t1"⟩] 7
     (by decide)⟩

/-- C7: Get-by-id returns the first task in collection order whose id
matches when one exists; it fails if and only if no task matches, and
then with HTTP 404 and detail `"Tarea no encontrada"`; and handling a
Get request never changes the persisted collection. -/
theorem C7_get_first_match_or_404 (tasks : List Task) (task_id : Nat) :
    ((∃ t ∈ tasks, t.id = task_id) →
      ∃ l1 t l2, tasks = l1 ++ t :: l2 ∧ t.id = task_id ∧
        (∀ v ∈ l1, v.id ≠ task_id) ∧
        get_task tasks task_id = .ok t) ∧
    (get_task tasks task_id = .error notFound ↔
      ∀ t ∈ tasks, t.id ≠ task_id) ∧
    notFound = ⟨404, "Tarea no encontrada"⟩ ∧
    apply_op tasks (Op.get task_id) = tasks := by
  refine ⟨?_, ⟨?_, get_task_error⟩, rfl, rfl⟩
  · intro h
    obtain ⟨l1, t, l2, rfl, htid, hfirst⟩ := exists_first_match h
    exact ⟨l1, t, l2, rfl, htid, hfirst, get_task_first htid hfirst⟩
  · intro herr
    by_contra hcon
    push_neg at hcon
    obtain ⟨t, ht, htid⟩ := hcon
    obtain ⟨l1, w, l2, hsplit, hwid, hfirst⟩ :=
      exists_first_match ⟨t, ht, htid⟩
    rw [hsplit, get_task_first hwid hfirst] at herr
    simp at herr

/-- Witness for C7 at a concrete two-task collection: Get returns the
matching task with id 2. -/
theorem C7_get_first_match_or_404_witness :
    (∃ t ∈ ([⟨1, "A", "", "pendiente", 1, "t1"⟩,
             ⟨2, "B", "", "pendiente", 2, "t2"⟩] : List Task),
      Task.id t = 2) ∧
    (∃ l1 t l2,
      ([⟨1, "A", "", "pendiente", 1, "t1"⟩,
        ⟨2, "B", "", "pendiente", 2, "t2"⟩] : List Task)
        = l1 ++ t :: l2 ∧ Task.id t = 2 ∧
      (∀ v ∈ l1, Task.id v ≠ 2) ∧
      get_task [⟨1, "A", "", "pendiente", 1, "t1"⟩,
        ⟨2, "B", "", "pendiente", 2, "t2"⟩] 2 = .ok t) :=
  ⟨⟨⟨2, "B", "", "pendiente", 2, "t2"⟩, by simp, rfl⟩,
   (C7_get_first_match_or_404 _ 2).1
     ⟨⟨2, "B", "", "pendiente", 2, "t2"⟩, by simp, rfl⟩⟩

/-- C8: for every Create input and prior collection, the task built,
returned and appended has status `"pendiente"`, the client-supplied
title, description and priority unchanged, and `created_at` equal to the
clock reading taken at the call (the code's `datetime.now(timezone.utc)
.isoformat()`, modelled as the `now` argument); it is appended at the
end, and the full extended collection is what gets persisted. -/
theorem C8_create_builds_task (tasks : List Task) (task_in : TaskCreate)
    (now : String) :
    (create_task tasks task_in now).1.status = "pendiente" ∧
    (create_task tasks task_in now).1.title = task_in.title ∧
    (create_task tasks task_in now).1.description = task_in.description ∧
    (create_task tasks task_in now).1.priority = task_in.priority ∧
    (create_task tasks task_in now).1.created_at = now ∧
    (create_task tasks task_in now).2 =
      tasks ++ [(create_task tasks task_in now).1] :=
  ⟨rfl, rfl, rfl, rfl, rfl, rfl⟩

/-- C9: in every reachable state every status is `"pendiente"` or
`"completada"`; every created task starts `"pendiente"`; across any
single handled request, a task of the new state sharing its id with a
task of the old state is either that task unchanged or that task with
status set to `"completada"` by a Complete request — so no request but
Complete changes any status, and a `"completada"` task never returns to
`"pendiente"`. -/
theorem C9_status_transitions_one_way :
    (∀ s : List Task, Reachable s → ∀ t ∈ s,
      t.status = "pendiente" ∨ t.status = "completada") ∧
    (∀ tasks : List Task, ∀ task_in : TaskCreate, ∀ now : String,
      (create_task tasks task_in now).1.status = "pendiente") ∧
    (∀ s : List Task, Reachable s → ∀ op : Op,
      ∀ t2 ∈ apply_op s op, ∀ t ∈ s, t2.id = t.id →
        t2 = t ∨ ∃ task_id, op = Op.complete task_id ∧
          t2 = { t with status := "completada" }) ∧
    (∀ s : List Task, Reachable s → ∀ op : Op,
      ∀ t2 ∈ apply_op s op, ∀ t ∈ s, t2.id = t.id →
        t.status = "completada" → t2.status = "completada") := by
  refine ⟨fun _ hs => reachable_status hs,
    fun _ _ _ => rfl,
    fun _ hs op _ ht2 _ ht hid =>
      step_status_one_way (reachable_nodup hs) op ht2 ht hid,
    fun s hs op t2 ht2 t ht hid hcomp => ?_⟩
  rcases step_status_one_way (reachable_nodup hs) op ht2 ht hid with
    h | ⟨task_id, _, h⟩
  · rw [h]; exact hcomp
  · rw [h]

/-- Witness for C9: after Create then Complete, re-listing leaves the
completed task completed. -/
theorem C9_status_transitions_one_way_witness :
    ({ id := 1, title := "A", description := "", status := "completada",
       priority := 1, created_at := "t1" } : Task).status
      = "completada" :=
  C9_status_transitions_one_way.2.2.2
    (apply_op (apply_op [] (Op.create ⟨"A", "", 1⟩ "t1")) (Op.complete 1))
    (Reachable.step (apply_op [] (Op.create ⟨"A", "", 1⟩ "t1"))
      (Op.complete 1)
      (Reachable.step [] (Op.create ⟨"A", "", 1⟩ "t1") Reachable.empty))
    Op.list
    ⟨1, "A", "", "completada", 1, "t1"⟩ (by decide)
    ⟨1, "A", "", "completada", 1, "t1"⟩ (by decide)
    rfl rfl

/-- C10: on a collection holding several tasks with the same id (a state
not producible sequentially), one Delete call removes every task with
that id, while Get-by-id returns only the first such task and Complete
rewrites only the first such task — any matching task after the first is
kept untouched by Complete. -/
theorem C10_duplicate_id_behaviour (l1 : List Task) (t : Task)
    (l2 : List Task) (task_id : Nat) (ht : t.id = task_id)
    (hl1 : ∀ v ∈ l1, v.id ≠ task_id)
    (hdup : ∃ u ∈ l2, u.id = task_id) :
    delete_task (l1 ++ t :: l2) task_id =
      .ok ("Tarea eliminada correctamente",
           (l1 ++ t :: l2).filter (fun v => v.id ≠ task_id)) ∧
    (∀ v ∈ (l1 ++ t :: l2).filter (fun v => v.id ≠ task_id),
      v.id ≠ task_id) ∧
    get_task (l1 ++ t :: l2) task_id = .ok t ∧
    complete_task (l1 ++ t :: l2) task_id =
      .ok ({ t with status := "completada" },
           l1 ++ { t with status := "completada" } :: l2) ∧
    (∃ u ∈ l2, u.id = task_id ∧
      u ∈ l1 ++ { t with status := "completada" } :: l2) := by
  obtain ⟨u, hu, huid⟩ := hdup
  refine ⟨delete_task_ok ⟨t, by simp, ht⟩, ?_, get_task_first ht hl1,
    complete_task_first ht hl1, u, hu, huid, by simp [hu]⟩
  intro v hv
  simpa using List.of_mem_filter hv

/-- Witness for C10 at a concrete collection with two tasks of id 1:
Delete drops both, Get and Complete touch only the first. -/
theorem C10_duplicate_id_behaviour_witness :
    delete_task ([] ++ (⟨1, "A", "", "pendiente", 1, "t1"⟩ : Task) ::
        [⟨1, "B", "", "pendiente", 2, "t2"⟩]) 1 =
      .ok ("Tarea eliminada correctamente",
           ([] ++ (⟨1, "A", "", "pendiente", 1, "t1"⟩ : Task) ::
             [⟨1, "B", "", "pendiente", 2, "t2"⟩]).filter
             (fun v => Task.id v ≠ 1)) ∧
    (∀ v ∈ ([] ++ (⟨1, "A", "", "pendiente", 1, "t1"⟩ : Task) ::
        [⟨1, "B", "", "pendiente", 2, "t2"⟩]).filter
        (fun v => Task.id v ≠ 1), Task.id v ≠ 1) ∧
    get_task ([] ++ (⟨1, "A", "", "pendiente", 1, "t1"⟩ : Task) ::
        [⟨1, "B", "", "pendiente", 2, "t2"⟩]) 1 =
      .ok ⟨1, "A", "", "pendiente", 1, "t1"⟩ ∧
    complete_task ([] ++ (⟨1, "A", "", "pendiente", 1, "t1"⟩ : Task) ::
        [⟨1, "B", "", "pendiente", 2, "t2"⟩]) 1 =
      .ok (⟨1, "A", "", "completada", 1, "t1"⟩,
           [] ++ (⟨1, "A", "", "completada", 1, "t1"⟩ : Task) ::
             [⟨1, "B", "", "pendiente", 2, "t2"⟩]) ∧
    (∃ u ∈ ([⟨1, "B", "", "pendiente", 2, "t2"⟩] : List Task),
      Task.id u = 1 ∧
      u ∈ [] ++ (⟨1, "A", "", "completada", 1, "t1"⟩ : Task) ::
        [⟨1, "B", "", "pendiente", 2, "t2"⟩]) :=
  C10_duplicate_id_behaviour [] ⟨1, "A", "", "pendiente", 1, "t1"⟩
    [⟨1, "B", "", "pendiente", 2, "t2"⟩] 1 rfl (by simp)
    ⟨⟨1, "B", "", "pendiente", 2, "t2"⟩, by simp, rfl⟩

end ToDo
